import Mathlib

/-!
Verification of the topical-authority pipeline of the seo-agency repository
(`apps/api/seo_analyzer.py`, class `SEOAnalyzer`).

The pure/algorithmic parts of the source are embedded as Lean definitions:
Python floats become real numbers, Python lists become Lean lists, Python
dicts with optional keys become structures with `Option` fields (where the
source reads them with `.get(key, default)` the embedding applies `Option.getD`
at exactly the same place).  The external collaborators (HTTP fetching, the
sentence-embedding model, the UMAP/HDBSCAN clusterer, KeyBERT) are passed in
as function parameters, exactly at the boundary where the source calls them.
-/

namespace SeoAnalyzer

/-! ## Python string primitives used by the crawler (`crawl_website`) -/

/-- Python `str.strip()`: remove leading and trailing whitespace characters. -/
def pyStrip (s : String) : String :=
  ⟨((s.data.dropWhile Char.isWhitespace).reverse.dropWhile Char.isWhitespace).reverse⟩

/-- Helper for Python `str.split()` with no separator: accumulate
maximal runs of non-whitespace characters. -/
def splitWsAux : List Char → List Char → List String → List String
  | [], cur, acc =>
      if cur.isEmpty then acc.reverse else (⟨cur.reverse⟩ :: acc).reverse
  | c :: cs, cur, acc =>
      if c.isWhitespace then
        if cur.isEmpty then splitWsAux cs [] acc
        else splitWsAux cs [] (⟨cur.reverse⟩ :: acc)
      else splitWsAux cs (c :: cur) acc

/-- Python `str.split()` with no separator: split on whitespace runs,
discarding empty fields. -/
def pySplitWs (s : String) : List String := splitWsAux s.data [] []

/-- Python `str.startswith(p)`. -/
def pyStartsWith (s p : String) : Bool := p.data.isPrefixOf s.data

/-- Scheme of an absolute URL, as `urllib.parse.urlparse` returns it:
the characters before the first colon. -/
def urlScheme (u : String) : String := ⟨u.data.takeWhile (fun c => c ≠ ':')⟩

/-- Network location (host) of an absolute URL, as `urlparse` returns it:
the characters after `scheme://` up to the first `/`, `?` or `#`. -/
def urlHost (u : String) : String :=
  let rest := u.data.drop ((urlScheme u).length + 3)
  ⟨rest.takeWhile (fun c => c ≠ '/' ∧ c ≠ '?' ∧ c ≠ '#')⟩

/-- The origin `scheme://host` of an absolute URL.  In `crawl_website` this is
the quantity `base_domain = f"{parsed_base.scheme}://{parsed_base.netloc}"`. -/
def urlOrigin (u : String) : String := urlScheme u ++ "://" ++ urlHost u

/-! ## Site crawler (`crawl_website`)

The HTTP fetch plus HTML extraction is the external Page Fetcher collaborator.
It is modelled by a function `fetch : String → Option FetchedPage`:
`none` stands for the exception path of the source (network error, timeout, or
`raise_for_status` on a non-2xx response); `some pg` stands for a successful
2xx fetch, with `pg.links` holding the `urljoin`-resolved targets of the
page's `<a href>` elements in document order, and `pg.bodyText` the
whitespace-normalised, 5000-character-capped body text the source computes
with BeautifulSoup.  The state also records the sequence of URLs on which the
fetch was invoked, so that re-fetching is observable. -/

structure FetchedPage where
  title : String
  metaDesc : String
  bodyText : String
  links : List String
deriving Repr, DecidableEq

/-- One crawled page, as appended to `pages_data` by `crawl_website`. -/
structure PageRecord where
  url : String
  title : String
  meta_description : String
  body_text : String
  full_text : String
  word_count : Nat
deriving Repr, DecidableEq

/-- `full_text = f"{title}. {meta_desc}. {body_text}"` from the source. -/
def fullText (title metaDesc bodyText : String) : String :=
  title ++ ". " ++ metaDesc ++ ". " ++ bodyText

/-- The record-creation step of `crawl_website`: a `PageRecord` is appended
exactly when `len(full_text.strip()) > 50`. -/
def savePage (currentUrl : String) (pg : FetchedPage) : Option PageRecord :=
  let ft := fullText pg.title pg.metaDesc pg.bodyText
  if 50 < (pyStrip ft).length then
    some { url := currentUrl, title := pg.title, meta_description := pg.metaDesc,
           body_text := pg.bodyText, full_text := ft,
           word_count := (pySplitWs ft).length }
  else none

/-- Mutable state of the crawl loop: the `visited` set (kept as a list in
insertion order), the FIFO frontier `to_visit`, the accumulated `pages_data`,
and the log of URLs the fetch collaborator was invoked on. -/
structure CrawlState where
  visited : List String
  toVisit : List String
  pages : List PageRecord
  fetchLog : List String
deriving Repr, DecidableEq

/-- One simulation of the `while to_visit and len(pages_data) < max_pages`
loop of `crawl_website`, with explicit fuel bounding the number of
iterations (each iteration pops one frontier entry).  Mirrors the source:
pop the head; skip it if already visited; invoke the fetch; on failure skip
(the `except` path: the URL is *not* marked visited); on success mark
visited, append a `PageRecord` when the content test passes, and — when the
page budget is not yet exhausted — enqueue every link `full_url` with
`full_url.startswith(base_domain)` that is not in `visited`. -/
def crawlLoop (fetch : String → Option FetchedPage) (baseDomain : String)
    (maxPages : Nat) : Nat → CrawlState → CrawlState
  | 0, s => s
  | fuel + 1, s =>
    if s.toVisit = [] ∨ ¬ s.pages.length < maxPages then s
    else
      match s.toVisit with
      | [] => s
      | currentUrl :: rest =>
        if currentUrl ∈ s.visited then
          crawlLoop fetch baseDomain maxPages fuel { s with toVisit := rest }
        else
          match fetch currentUrl with
          | none =>
              crawlLoop fetch baseDomain maxPages fuel
                { s with toVisit := rest, fetchLog := s.fetchLog ++ [currentUrl] }
          | some pg =>
              let visited' := s.visited ++ [currentUrl]
              let pages' := match savePage currentUrl pg with
                | some rec => s.pages ++ [rec]
                | none => s.pages
              let newLinks :=
                if pages'.length < maxPages then
                  pg.links.filter (fun l => pyStartsWith l baseDomain && !(visited'.contains l))
                else []
              crawlLoop fetch baseDomain maxPages fuel
                { visited := visited', toVisit := rest ++ newLinks,
                  pages := pages', fetchLog := s.fetchLog ++ [currentUrl] }

/-- `crawl_website(url, max_pages)`: seed the frontier with the start URL,
compute `base_domain` from it, and run the loop. -/
def crawl_website (fetch : String → Option FetchedPage) (url : String)
    (maxPages : Nat) (fuel : Nat) : CrawlState :=
  crawlLoop fetch (urlOrigin url) maxPages fuel
    { visited := [], toVisit := [url], pages := [], fetchLog := [] }

/-! ## Topic extraction (`extract_topics`, `_calculate_semantic_relevance`)

The sentence-embedding model and the UMAP+HDBSCAN clusterer inside BERTopic
are external collaborators; they enter as the function parameters `embed`
(one vector per input text, positionally aligned) and `cluster` (one integer
topic id per vector, `-1` the outlier sentinel).  KeyBERT keyword extraction
is likewise external and is not part of any numeric claim; the per-topic
summaries keep only the structural fields (`topic_id`, `document_count`). -/

/-- An embedding vector (one row of the numpy embedding matrix). -/
def Vec : Type := List ℝ

/-- Dot product of two embedding vectors. -/
noncomputable def dotProduct (u v : Vec) : ℝ :=
  ((List.zip u v).map (fun p => p.1 * p.2)).sum

/-- Euclidean norm of an embedding vector. -/
noncomputable def vecNorm (u : Vec) : ℝ :=
  Real.sqrt ((u.map (fun x => x * x)).sum)

/-- Cosine similarity of two vectors as `sklearn.metrics.pairwise.cosine_similarity`
computes it (a zero vector is left unnormalised, so its similarities are 0,
matching Lean's `x / 0 = 0` convention). -/
noncomputable def cosineSim (u v : Vec) : ℝ :=
  dotProduct u v / (vecNorm u * vecNorm v)

/-- All unordered pairs of list elements in position order: the upper
triangle (excluding the diagonal) of the pairwise matrix over `l`. -/
def pairsUpper : List α → List (α × α)
  | [] => []
  | x :: xs => xs.map (fun y => (x, y)) ++ pairsUpper xs

/-- Indices of the documents assigned to topic `t`
(the source's `[i for i, t in enumerate(topics) if t == topic_id]`). -/
def memberIdx (topics : List Int) (t : Int) : List Nat :=
  (List.range topics.length).filter (fun i => topics.getD i 0 == t)

/-- The pairwise within-topic similarities one iteration of
`_calculate_semantic_relevance`'s loop contributes for a topic id `t`:
the topic's embedding rows (`embeddings[[i ...]]`), and, when there are at
least two of them, the upper triangle of their cosine-similarity matrix. -/
noncomputable def topicSims (embs : List Vec) (topics : List Int) (t : Int) : List ℝ :=
  let topicEmbs := (memberIdx topics t).map (fun i => embs.getD i [])
  if 1 < topicEmbs.length then
    (pairsUpper topicEmbs).map (fun p => cosineSim p.1 p.2)
  else []

/-- `_calculate_semantic_relevance(embeddings, topics)`: pool the pairwise
within-topic similarities over every non-outlier topic id (`set(topics)`
minus `-1`; the iteration order of the Python set does not affect the mean)
and return their mean, or `0.0` when no pair exists. -/
noncomputable def calculate_semantic_relevance (embs : List Vec) (topics : List Int) : ℝ :=
  let similarities := ((topics.dedup).filter (fun t => t != -1)).flatMap (topicSims embs topics)
  if similarities = [] then 0 else similarities.sum / similarities.length

/-- Topical consistency as `extract_topics` computes it (lines 268–279 of the
source): `total_docs` counts the non-outlier assignments, but the
probability list is built from *all* values of `Counter(topics)` — the
outlier count included (`topics.dedup` enumerates the Counter's keys;
multiplicities give its values). -/
noncomputable def topicalConsistency (topics : List Int) : ℝ :=
  let total_docs := (topics.filter (fun t => t != -1)).length
  if 0 < total_docs then
    let counts := (topics.dedup).map (fun t => topics.count t)
    let topic_probs : List ℚ :=
      (counts.filter (fun c => 0 < c)).map (fun c => (c : ℚ) / total_docs)
    let entropy : ℝ :=
      -(((topic_probs.filter (fun p => 0 < p)).map
          (fun p => (p : ℝ) * Real.log (p : ℝ))).sum)
    let max_entropy : ℝ :=
      if 1 < topic_probs.length then Real.log topic_probs.length else 1
    1 - (if 0 < max_entropy then entropy / max_entropy else 0)
  else 0

/-- Per-topic summary: the structural fields of the dictionaries
`extract_topics` appends to `topic_results` (keyword fields belong to the
external KeyBERT collaborator and carry no numeric claim). -/
structure TopicSummary where
  topic_id : Int
  document_count : Nat
deriving Repr, DecidableEq

/-- The success payload of `extract_topics`. -/
structure TopicResult where
  topics : List TopicSummary
  total_documents : Nat
  total_topics : Nat
  outliers : Nat
  topical_consistency : ℝ
  semantic_relevance : ℝ
  topic_assignments : List Int

/-- `extract_topics(pages_data)`.  The returned Boolean records whether the
reducer/clusterer was invoked (`topic_model.fit_transform`): the source
guards only the *empty* input (returning `{'error': 'No pages to analyze'}`)
and otherwise always fits the model, whatever the page count. -/
noncomputable def extract_topics (embed : List String → List Vec)
    (cluster : List Vec → List Int) (pages : List PageRecord) :
    Except String TopicResult × Bool :=
  match pages with
  | [] => (Except.error "No pages to analyze", false)
  | _ :: _ =>
    let texts := pages.map (fun p => p.full_text)
    let embeddings := embed texts
    let topics := cluster embeddings
    let summaries := ((topics.dedup).filter (fun t => t != -1)).map
      (fun t => { topic_id := t, document_count := (memberIdx topics t).length : TopicSummary })
    (Except.ok
      { topics := summaries
        total_documents := texts.length
        total_topics := summaries.length
        outliers := topics.count (-1)
        topical_consistency := topicalConsistency topics
        semantic_relevance := calculate_semantic_relevance embeddings topics
        topic_assignments := topics }, true)

/-! ## Topical authority scorer (`calculate_topical_authority_score`)

`topic_data` and `domain_metrics` reach the scorer as dictionaries; every
read in the source is a `.get(key, default)`, embedded here as an `Option`
field read with `getD`.  `domain_metrics['moz']` may lack a `status` key
entirely (credentials absent give `metrics['moz'] = {}`), hence
`status : Option String`.  `domain_age_years` is `none` when the WHOIS
lookup failed, the key is missing, or the stored value is Python `None`;
the source's truthiness test `if domain_age_years` additionally sends the
value `0` to a zero bonus. -/

structure MozData where
  status : Option String
  domain_authority : Option ℝ
  page_authority : Option ℝ
  spam_score : Option ℝ
  root_domains_linking : Option ℝ

structure TopicDataIn where
  semantic_relevance : Option ℝ
  topical_consistency : Option ℝ

structure DomainMetricsIn where
  moz : MozData
  domain_age_years : Option ℝ

/-- Python `round(x, 2)` on ideal reals: round to the nearest multiple of
1/100 (Python uses banker's rounding at exact half-cent ties; no quantity in
this development sits on such a tie, so nearest-rounding is faithful). -/
noncomputable def round2 (x : ℝ) : ℝ := (round (x * 100) : ℤ) / 100

/-- Backlink-quality component (source lines 511–525): the weighted Moz
combination when `moz.get('status') == 'success'`, the neutral default 50
otherwise. -/
noncomputable def backlink_quality (moz : MozData) : ℝ :=
  if moz.status = some "success" then
    let da := moz.domain_authority.getD 0
    let spam := moz.spam_score.getD 0
    let root_domains := moz.root_domains_linking.getD 0
    let da_normalized := min da 100
    let spam_penalty := max 0 (100 - spam * 2)
    let backlink_score := min (Real.log (1 + root_domains) * 10) 100
    da_normalized * 0.5 + spam_penalty * 0.2 + backlink_score * 0.3
  else 50

/-- Domain-age bonus (source lines 528–530):
`min(domain_age_years * 2, 10) if domain_age_years else 0`. -/
noncomputable def age_bonus (age : Option ℝ) : ℝ :=
  match age with
  | none => 0
  | some a => if a = 0 then 0 else min (a * 2) 10

/-- The unrounded final score (source lines 533–534):
`min(base_score + age_bonus, 100)`. -/
noncomputable def finalScore (td : TopicDataIn) (dm : DomainMetricsIn) : ℝ :=
  let semantic_relevance := td.semantic_relevance.getD 0 * 100
  let topical_consistency := td.topical_consistency.getD 0 * 100
  let base_score := (semantic_relevance + topical_consistency + backlink_quality dm.moz) / 3
  min (base_score + age_bonus dm.domain_age_years) 100

/-- The grade ladder of source lines 537–548, applied to the unrounded
`final_score`. -/
noncomputable def gradeOf (x : ℝ) : String :=
  if 90 ≤ x then "A+"
  else if 80 ≤ x then "A"
  else if 70 ≤ x then "B"
  else if 60 ≤ x then "C"
  else if 50 ≤ x then "D"
  else "F"

/-- `_interpret_score`, the six fixed strings on the same thresholds. -/
noncomputable def interpretOf (x : ℝ) : String :=
  if 90 ≤ x then "Exceptional topical authority with strong content focus and authoritative backlinks"
  else if 80 ≤ x then "Strong topical authority with good content coherence and solid domain metrics"
  else if 70 ≤ x then "Good topical authority with room for improvement in content focus or backlinks"
  else if 60 ≤ x then "Moderate topical authority; consider improving content consistency and link building"
  else if 50 ≤ x then "Fair topical authority; significant improvements needed in multiple areas"
  else "Weak topical authority; requires comprehensive SEO strategy overhaul"

/-- The result dictionary of `calculate_topical_authority_score`. -/
structure AuthorityScore where
  topical_authority_score : ℝ
  grade : String
  semantic_relevance : ℝ
  topical_consistency : ℝ
  backlink_quality : ℝ
  domain_age_bonus : ℝ
  interpretation : String

/-- `calculate_topical_authority_score(topic_data, domain_metrics)`:
assembles the rounded score, the grade and interpretation (both computed
from the *unrounded* `final_score`), and the four rounded components. -/
noncomputable def calculate_topical_authority_score (td : TopicDataIn)
    (dm : DomainMetricsIn) : AuthorityScore :=
  { topical_authority_score := round2 (finalScore td dm)
    grade := gradeOf (finalScore td dm)
    semantic_relevance := round2 (td.semantic_relevance.getD 0 * 100)
    topical_consistency := round2 (td.topical_consistency.getD 0 * 100)
    backlink_quality := round2 (backlink_quality dm.moz)
    domain_age_bonus := round2 (age_bonus dm.domain_age_years)
    interpretation := interpretOf (finalScore td dm) }

/-! ## Specification-worded definitions

Each definition below transcribes the wording of spec.md / the claim list
(not the source); the claim theorems compare them with the source
embeddings above. -/

/-- Spec wording (§4.3): consistency `1 - H(p)/H_max` where `p_i` ranges over
the fractions of *non-outlier* documents in each *non-outlier* topic,
`H(p) = -Σ p_i·ln(p_i)` and `H_max = ln(number of topics)`, taken as 1 when
there is exactly one topic. -/
noncomputable def topicalConsistencySpec (topics : List Int) : ℝ :=
  let nonOutlier := topics.filter (fun t => t != -1)
  if 0 < nonOutlier.length then
    let counts := (nonOutlier.dedup).map (fun t => nonOutlier.count t)
    let probs : List ℚ := counts.map (fun c => (c : ℚ) / nonOutlier.length)
    let entropy : ℝ := -((probs.map (fun p => (p : ℝ) * Real.log (p : ℝ))).sum)
    let maxEntropy : ℝ := if 1 < counts.length then Real.log counts.length else 1
    1 - entropy / maxEntropy
  else 0

/-- Spec wording (§4.3): pool, over all unordered document pairs that share a
non-outlier topic, the cosine similarity of their embedding vectors, and take
the mean; 0 when no such pair exists. -/
noncomputable def semanticRelevanceSpec (embs : List Vec) (topics : List Int) : ℝ :=
  let ps := (pairsUpper (List.range topics.length)).filter
    (fun p => topics.getD p.1 0 == topics.getD p.2 0 && topics.getD p.1 0 != -1)
  let sims := ps.map (fun p => cosineSim (embs.getD p.1 []) (embs.getD p.2 []))
  if sims = [] then 0 else sims.sum / sims.length

/-- Spec wording (§4.6 / claim C2): the backlink-quality formula
`da_norm*0.5 + spam_penalty*0.2 + backlink_term*0.3` on success, else the
neutral default 50. -/
noncomputable def backlinkQualitySpec (moz : MozData) : ℝ :=
  if moz.status = some "success" then
    min (moz.domain_authority.getD 0) 100 * 0.5
      + max 0 (100 - moz.spam_score.getD 0 * 2) * 0.2
      + min (Real.log (1 + moz.root_domains_linking.getD 0) * 10) 100 * 0.3
  else 50

/-- Spec wording (§4.6 / claim C2): `age_bonus = min(domain_age_years*2, 10)`,
0 when the age is unknown. -/
noncomputable def ageBonusSpec (age : Option ℝ) : ℝ :=
  match age with
  | none => 0
  | some a => min (a * 2) 10

/-- Spec wording (§4.6 / claim C2): the final unrounded score
`min((semantic*100 + consistency*100 + backlink_quality)/3 + age_bonus, 100)`. -/
noncomputable def finalScoreSpec (td : TopicDataIn) (dm : DomainMetricsIn) : ℝ :=
  min ((td.semantic_relevance.getD 0 * 100 + td.topical_consistency.getD 0 * 100
        + backlinkQualitySpec dm.moz) / 3 + ageBonusSpec dm.domain_age_years) 100

/-! ## Claim theorems -/

/-- The source's truthiness-based age bonus agrees with the spec's
`min(age*2, 10)`-with-0-when-unknown formula (at age exactly 0 both give 0). -/
theorem age_bonus_eq_spec (age : Option ℝ) : age_bonus age = ageBonusSpec age := by
  cases age with
  | none => rfl
  | some a =>
    simp only [age_bonus, ageBonusSpec]
    split
    · rename_i h0
      subst h0
      norm_num
    · rfl

/-- Scenario C inputs: Moz status "unavailable", relevance 0.8,
consistency 0.8, unknown domain age. -/
def tdScenarioC : TopicDataIn := { semantic_relevance := some 0.8, topical_consistency := some 0.8 }

def dmScenarioC : DomainMetricsIn :=
  { moz := { status := some "unavailable", domain_authority := none, page_authority := none,
             spam_score := none, root_domains_linking := none }
    domain_age_years := none }

/-- C2: for every input, the scorer computes exactly the spec formula
(success-branch Moz combination or the neutral 50, age bonus
`min(age*2,10)` with 0 when unknown, final `min(base + bonus, 100)`); in
particular scenario C (status unavailable, relevance 0.8, consistency 0.8,
age unknown) yields score 70.0 with grade "B". -/
theorem C2_score_formula :
    (∀ td dm, finalScore td dm = finalScoreSpec td dm) ∧
    (calculate_topical_authority_score tdScenarioC dmScenarioC).topical_authority_score = 70 ∧
    (calculate_topical_authority_score tdScenarioC dmScenarioC).grade = "B" := by
  refine ⟨fun td dm => ?_, ?_, ?_⟩
  · simp only [finalScore, finalScoreSpec, age_bonus_eq_spec]
    rfl
  · have hfs : finalScore tdScenarioC dmScenarioC = 70 := by
      simp only [finalScore, backlink_quality, age_bonus, tdScenarioC, dmScenarioC]
      rw [if_neg (by decide : ¬ ((some "unavailable" : Option String) = some "success"))]
      norm_num [min_def]
    simp only [calculate_topical_authority_score, hfs, round2]
    rw [show ((70 : ℝ) * 100) = ((7000 : ℤ) : ℝ) by norm_num, round_intCast]
    norm_num
  · have hfs : finalScore tdScenarioC dmScenarioC = 70 := by
      simp only [finalScore, backlink_quality, age_bonus, tdScenarioC, dmScenarioC]
      rw [if_neg (by decide : ¬ ((some "unavailable" : Option String) = some "success"))]
      norm_num [min_def]
    simp only [calculate_topical_authority_score, hfs, gradeOf]
    norm_num

/-- Inputs on which the rounded score and the unrounded grade disagree:
relevance 1, consistency 1, Moz success with domain authority 39.976,
spam 0, zero linking root domains, age unknown. -/
def tdRoundGap : TopicDataIn := { semantic_relevance := some 1, topical_consistency := some 1 }

def dmRoundGap : DomainMetricsIn :=
  { moz := { status := some "success", domain_authority := some 39.976, page_authority := none,
             spam_score := some 0, root_domains_linking := some 0 }
    domain_age_years := none }

theorem finalScore_roundGap : finalScore tdRoundGap dmRoundGap = 79.996 := by
  simp only [finalScore, backlink_quality, age_bonus, tdRoundGap, dmRoundGap, Option.getD_some]
  norm_num [min_def, max_def, Real.log_one]

/-- C5 counterexample: a returned score field of exactly 80.0 carrying grade
"B" — the grade is computed from the unrounded final score 79.996, while the
returned score is its rounding 80.0. -/
theorem C5_counterexample :
    (calculate_topical_authority_score tdRoundGap dmRoundGap).topical_authority_score = 80 ∧
    (calculate_topical_authority_score tdRoundGap dmRoundGap).grade = "B" := by
  constructor
  · simp only [calculate_topical_authority_score, finalScore_roundGap, round2]
    have h : round ((79.996 : ℝ) * 100) = 8000 := by
      rw [round_eq, Int.floor_eq_iff]
      norm_num
    rw [h]
    norm_num
  · simp only [calculate_topical_authority_score, finalScore_roundGap, gradeOf]
    norm_num

/-- C5 amended: the grade and the interpretation are pure functions of the
*unrounded* final score at the stated inclusive thresholds; consequently a
returned (rounded) score field of 79.99 always carries grade "B", but a
returned score of exactly 80.0 need not carry grade "A" (see the
counterexample). -/
theorem C5_grade_thresholds (td : TopicDataIn) (dm : DomainMetricsIn) :
    (calculate_topical_authority_score td dm).grade = gradeOf (finalScore td dm) ∧
    (calculate_topical_authority_score td dm).interpretation = interpretOf (finalScore td dm) ∧
    ((calculate_topical_authority_score td dm).topical_authority_score = 79.99 →
      (calculate_topical_authority_score td dm).grade = "B") := by
  refine ⟨rfl, rfl, fun h => ?_⟩
  have hr : ((round (finalScore td dm * 100) : ℤ) : ℝ) = 7999 := by
    have := h
    simp only [calculate_topical_authority_score, round2] at this
    have h100 : ((round (finalScore td dm * 100) : ℤ) : ℝ) = 79.99 * 100 := by
      field_simp at this
      linarith
    rw [h100]; norm_num
  have hz : round (finalScore td dm * 100) = 7999 := by
    exact_mod_cast hr
  rw [round_eq, Int.floor_eq_iff] at hz
  push_cast at hz
  have hlow : (79.985 : ℝ) ≤ finalScore td dm := by linarith
  have hhigh : finalScore td dm < 79.995 := by linarith
  simp only [calculate_topical_authority_score, gradeOf]
  rw [if_neg (by linarith), if_neg (by linarith), if_pos (by linarith)]

/-- Inputs whose final score is exactly 79.99: relevance 0.9997,
consistency 0.9, Moz unavailable, age unknown. -/
def tdGrade7999 : TopicDataIn :=
  { semantic_relevance := some 0.9997, topical_consistency := some 0.9 }

def dmGrade7999 : DomainMetricsIn :=
  { moz := { status := none, domain_authority := none, page_authority := none,
             spam_score := none, root_domains_linking := none }
    domain_age_years := none }

theorem C5_witness :
    (calculate_topical_authority_score tdGrade7999 dmGrade7999).grade = "B" := by
  refine (C5_grade_thresholds tdGrade7999 dmGrade7999).2.2 ?_
  have hfs : finalScore tdGrade7999 dmGrade7999 = 79.99 := by
    simp only [finalScore, backlink_quality, age_bonus, tdGrade7999, dmGrade7999,
      Option.getD_some]
    rw [if_neg (by decide : ¬ ((none : Option String) = some "success"))]
    norm_num [min_def]
  simp only [calculate_topical_authority_score, hfs, round2]
  rw [show ((79.99 : ℝ) * 100) = ((7999 : ℤ) : ℝ) by norm_num, round_intCast]
  norm_num

/-- Inputs with a negative stored relevance/consistency (nothing in the
scorer clamps them): both −1, Moz data absent, age unknown. -/
def tdNegative : TopicDataIn :=
  { semantic_relevance := some (-1), topical_consistency := some (-1) }

def dmAbsent : DomainMetricsIn :=
  { moz := { status := none, domain_authority := none, page_authority := none,
             spam_score := none, root_domains_linking := none }
    domain_age_years := none }

/-- C8 counterexample: the scorer has no lower clamp, so an input with
negative relevance and consistency yields the returned score −50, outside
[0,100]. -/
theorem C8_counterexample :
    (calculate_topical_authority_score tdNegative dmAbsent).topical_authority_score = -50 := by
  have hfs : finalScore tdNegative dmAbsent = -50 := by
    simp only [finalScore, backlink_quality, age_bonus, tdNegative, dmAbsent, Option.getD_some]
    rw [if_neg (by decide : ¬ ((none : Option String) = some "success"))]
    norm_num [min_def]
  simp only [calculate_topical_authority_score, hfs, round2]
  rw [show ((-50 : ℝ) * 100) = ((-5000 : ℤ) : ℝ) by norm_num, round_intCast]
  norm_num

theorem backlink_quality_nonneg (moz : MozData)
    (hda : 0 ≤ moz.domain_authority.getD 0)
    (hroot : 0 ≤ moz.root_domains_linking.getD 0) :
    0 ≤ backlink_quality moz := by
  unfold backlink_quality
  split
  · have h1 : (0 : ℝ) ≤ min (moz.domain_authority.getD 0) 100 :=
      le_min hda (by norm_num)
    have h2 : (0 : ℝ) ≤ max 0 (100 - moz.spam_score.getD 0 * 2) := le_max_left _ _
    have h3 : (0 : ℝ) ≤ min (Real.log (1 + moz.root_domains_linking.getD 0) * 10) 100 :=
      le_min (by
        have := Real.log_nonneg (by linarith : (1 : ℝ) ≤ 1 + moz.root_domains_linking.getD 0)
        linarith) (by norm_num)
    nlinarith
  · norm_num

theorem age_bonus_nonneg (age : Option ℝ) (h : 0 ≤ age.getD 0) : 0 ≤ age_bonus age := by
  cases age with
  | none => simp [age_bonus]
  | some a =>
    simp only [Option.getD_some] at h
    simp only [age_bonus]
    split
    · norm_num
    · exact le_min (by linarith) (by norm_num)

theorem round2_nonneg {x : ℝ} (hx : 0 ≤ x) : 0 ≤ round2 x := by
  unfold round2
  have h : (0 : ℤ) ≤ round (x * 100) := by
    rw [round_eq, Int.le_floor]
    push_cast
    linarith
  exact div_nonneg (by exact_mod_cast h) (by norm_num)

theorem round2_le_100 {x : ℝ} (hx : x ≤ 100) : round2 x ≤ 100 := by
  unfold round2
  have h : round (x * 100) ≤ 10000 := by
    rw [round_eq]
    have : ⌊x * 100 + 1 / 2⌋ < 10001 := by
      rw [Int.floor_lt]
      push_cast
      linarith
    omega
  have hc : ((round (x * 100) : ℤ) : ℝ) ≤ 10000 := by exact_mod_cast h
  linarith

/-- C8 amended: the scorer is total by construction (it always returns a
complete record with all four components, a grade, and an interpretation
drawn from the six fixed strings), and on inputs whose relevance,
consistency, domain authority, linking-root-domains count and domain age are
nonnegative — which includes every missing/`None` field, read as its default
— the returned score lies in [0,100].  Without the nonnegativity assumption
the lower bound fails (see the counterexample). -/
theorem C8_score_total_and_bounded (td : TopicDataIn) (dm : DomainMetricsIn)
    (h1 : 0 ≤ td.semantic_relevance.getD 0)
    (h2 : 0 ≤ td.topical_consistency.getD 0)
    (h3 : 0 ≤ dm.moz.domain_authority.getD 0)
    (h4 : 0 ≤ dm.moz.root_domains_linking.getD 0)
    (h5 : 0 ≤ dm.domain_age_years.getD 0) :
    0 ≤ (calculate_topical_authority_score td dm).topical_authority_score ∧
    (calculate_topical_authority_score td dm).topical_authority_score ≤ 100 ∧
    (calculate_topical_authority_score td dm).grade ∈ ["A+", "A", "B", "C", "D", "F"] ∧
    (calculate_topical_authority_score td dm).interpretation ∈
      ["Exceptional topical authority with strong content focus and authoritative backlinks",
       "Strong topical authority with good content coherence and solid domain metrics",
       "Good topical authority with room for improvement in content focus or backlinks",
       "Moderate topical authority; consider improving content consistency and link building",
       "Fair topical authority; significant improvements needed in multiple areas",
       "Weak topical authority; requires comprehensive SEO strategy overhaul"] := by
  have hbq := backlink_quality_nonneg dm.moz h3 h4
  have hab := age_bonus_nonneg dm.domain_age_years h5
  have hfs0 : 0 ≤ finalScore td dm := by
    unfold finalScore
    exact le_min (by nlinarith) (by norm_num)
  have hfs100 : finalScore td dm ≤ 100 := by
    unfold finalScore
    exact min_le_right _ _
  refine ⟨round2_nonneg hfs0, round2_le_100 hfs100, ?_, ?_⟩
  · simp only [calculate_topical_authority_score, gradeOf]
    split_ifs <;> simp
  · simp only [calculate_topical_authority_score, interpretOf]
    split_ifs <;> simp

/-- Well-behaved inputs for the C8 witness. -/
def tdHalf : TopicDataIn := { semantic_relevance := some 0.5, topical_consistency := some 0.5 }

def dmAged : DomainMetricsIn :=
  { moz := { status := none, domain_authority := none, page_authority := none,
             spam_score := none, root_domains_linking := none }
    domain_age_years := some 3 }

theorem C8_witness :
    0 ≤ (calculate_topical_authority_score tdHalf dmAged).topical_authority_score ∧
    (calculate_topical_authority_score tdHalf dmAged).topical_authority_score ≤ 100 ∧
    (calculate_topical_authority_score tdHalf dmAged).grade ∈ ["A+", "A", "B", "C", "D", "F"] ∧
    (calculate_topical_authority_score tdHalf dmAged).interpretation ∈
      ["Exceptional topical authority with strong content focus and authoritative backlinks",
       "Strong topical authority with good content coherence and solid domain metrics",
       "Good topical authority with room for improvement in content focus or backlinks",
       "Moderate topical authority; consider improving content consistency and link building",
       "Fair topical authority; significant improvements needed in multiple areas",
       "Weak topical authority; requires comprehensive SEO strategy overhaul"] :=
  C8_score_total_and_bounded tdHalf dmAged (by norm_num [tdHalf]) (by norm_num [tdHalf])
    (by norm_num [dmAged]) (by norm_num [dmAged]) (by norm_num [dmAged])

/-! ### Crawler claims -/

theorem savePage_eq_some {u : String} {pg : FetchedPage} {r : PageRecord}
    (h : savePage u pg = some r) :
    r.full_text = fullText r.title r.meta_description r.body_text ∧
    50 < (pyStrip r.full_text).length := by
  simp only [savePage] at h
  split at h
  · rename_i hlen
    cases h
    exact ⟨rfl, hlen⟩
  · exact absurd h (by simp)

/-- Any property of page records that holds of everything `savePage`
produces is an invariant of the accumulated `pages_data` list. -/
theorem crawlLoop_pages_property (fetch : String → Option FetchedPage)
    (baseDomain : String) (maxP : Nat) (P : PageRecord → Prop)
    (hP : ∀ u pg r, savePage u pg = some r → P r) :
    ∀ fuel s p, p ∈ (crawlLoop fetch baseDomain maxP fuel s).pages →
      (∀ q ∈ s.pages, P q) → P p := by
  intro fuel
  induction fuel with
  | zero =>
    intro s p hp hs
    exact hs p (by simpa [crawlLoop] using hp)
  | succ n ih =>
    intro s p hp hs
    rw [crawlLoop] at hp
    split at hp
    · exact hs p hp
    · split at hp
      · exact hs p hp
      · rename_i currentUrl rest heq
        split at hp
        · exact ih _ p hp hs
        · cases hf : fetch currentUrl with
          | none =>
            rw [hf] at hp
            exact ih _ p hp hs
          | some pg =>
            rw [hf] at hp
            refine ih _ p hp ?_
            intro q hq
            cases hsave : savePage currentUrl pg with
            | none =>
              rw [hsave] at hq
              exact hs q hq
            | some r =>
              rw [hsave] at hq
              rcases List.mem_append.mp hq with hq' | hq'
              · exact hs q hq'
              · rw [List.mem_singleton.mp hq']
                exact hP _ _ _ hsave

/-- URLs enter `visited` only on the success path of the fetch. -/
theorem crawlLoop_visited_success (fetch : String → Option FetchedPage)
    (baseDomain : String) (maxP : Nat) :
    ∀ fuel s u, u ∈ (crawlLoop fetch baseDomain maxP fuel s).visited →
      (∀ v ∈ s.visited, (fetch v).isSome) → (fetch u).isSome := by
  intro fuel
  induction fuel with
  | zero =>
    intro s u hu hs
    exact hs u (by simpa [crawlLoop] using hu)
  | succ n ih =>
    intro s u hu hs
    rw [crawlLoop] at hu
    split at hu
    · exact hs u hu
    · split at hu
      · exact hs u hu
      · rename_i currentUrl rest heq
        split at hu
        · exact ih _ u hu hs
        · cases hf : fetch currentUrl with
          | none =>
            rw [hf] at hu
            exact ih _ u hu hs
          | some pg =>
            rw [hf] at hu
            refine ih _ u hu ?_
            intro v hv
            rcases List.mem_append.mp hv with hv' | hv'
            · exact hs v hv'
            · rw [List.mem_singleton.mp hv', hf]
              rfl

/-- Fetch collaborator for the cross-origin escape: the seed page links to a
URL on a different host whose string nevertheless extends the seed origin. -/
def fetchEvil : String → Option FetchedPage := fun u =>
  if u = "https://example.com" then
    some { title := "Home", metaDesc := "", bodyText := "x",
           links := ["https://example.com.evil.org/page"] }
  else if u = "https://example.com.evil.org/page" then
    some { title := "Evil", metaDesc := "", bodyText := "y", links := [] }
  else none

/-- C6: the crawl of seed https://example.com enqueues (and then fetches and
marks visited) the URL https://example.com.evil.org/page, whose origin
differs from the seed's — the source filters links with
`full_url.startswith(base_domain)`, a string-prefix test, not an origin
comparison. -/
theorem C6_cross_origin_enqueued :
    "https://example.com.evil.org/page" ∈
      (crawlLoop fetchEvil (urlOrigin "https://example.com") 20 1
        { visited := [], toVisit := ["https://example.com"], pages := [], fetchLog := [] }).toVisit ∧
    "https://example.com.evil.org/page" ∈
      (crawl_website fetchEvil "https://example.com" 20 5).visited ∧
    urlOrigin "https://example.com.evil.org/page" ≠ urlOrigin "https://example.com" := by
  refine ⟨by decide, by decide, by decide⟩

/-- Fetch collaborator for the C9 instance: one page whose body alone is
under the 50-character threshold, while title and meta description push the
combined text over it. -/
def fetchShortBody : String → Option FetchedPage := fun u =>
  if u = "https://docs.example" then
    some { title := "Understanding Widgets", metaDesc := "All about widgets",
           bodyText := "Short body here.", links := [] }
  else none

/-- C9: every record a crawl accumulates has
`full_text = title + ". " + meta_description + ". " + body_text` with
stripped length strictly above 50 — the minimum-content test is applied to
that concatenation, not to the body alone — and a page whose body is only 16
characters still yields a record once title and meta description push the
combined stripped length to 58. -/
theorem C9_content_threshold_on_full_text :
    (∀ fetch url maxP fuel p, p ∈ (crawl_website fetch url maxP fuel).pages →
      p.full_text = fullText p.title p.meta_description p.body_text ∧
      50 < (pyStrip p.full_text).length) ∧
    (crawl_website fetchShortBody "https://docs.example" 20 3).pages.map
      (fun p => p.body_text) = ["Short body here."] ∧
    (pyStrip "Short body here.").length ≤ 50 := by
  refine ⟨fun fetch url maxP fuel p hp => ?_, by decide, by decide⟩
  exact crawlLoop_pages_property fetch (urlOrigin url) maxP _
    (fun u pg r h => savePage_eq_some h) fuel _ p hp (by simp)

theorem C9_witness :
    (crawl_website fetchShortBody "https://docs.example" 20 3).pages.length = 1 ∧
    ∀ p ∈ (crawl_website fetchShortBody "https://docs.example" 20 3).pages,
      p.full_text = fullText p.title p.meta_description p.body_text ∧
      50 < (pyStrip p.full_text).length :=
  ⟨by decide, fun p hp =>
    C9_content_threshold_on_full_text.1 fetchShortBody "https://docs.example" 20 3 p hp⟩

/-- Fetch collaborator for the re-fetch scenario: the seed links to pages
/b (which always fails) and /c; /c links back to /b. -/
def fetchFlaky : String → Option FetchedPage := fun u =>
  if u = "https://a.example" then
    some { title := "A", metaDesc := "", bodyText := "x",
           links := ["https://a.example/b", "https://a.example/c"] }
  else if u = "https://a.example/c" then
    some { title := "C", metaDesc := "", bodyText := "x",
           links := ["https://a.example/b"] }
  else none

/-- C10: a URL is marked visited only when its fetch succeeded (every member
of the final visited set has a successful fetch), and because a failed URL is
not marked visited it can be re-enqueued via links from another page and
fetched again: with `fetchFlaky`, /b fails, is re-enqueued by /c, and appears
twice in the fetch log of one crawl. -/
theorem C10_visited_only_on_success :
    (∀ fetch url maxP fuel u, u ∈ (crawl_website fetch url maxP fuel).visited →
      (fetch u).isSome) ∧
    (crawl_website fetchFlaky "https://a.example" 20 10).fetchLog.count
      "https://a.example/b" = 2 := by
  refine ⟨fun fetch url maxP fuel u hu => ?_, by decide⟩
  exact crawlLoop_visited_success fetch (urlOrigin url) maxP fuel _ u hu (by simp)

theorem C10_witness : (fetchFlaky "https://a.example").isSome :=
  C10_visited_only_on_success.1 fetchFlaky "https://a.example" 20 10
    "https://a.example" (by decide)

/-! ### Topic-extraction claims -/

/-- Trivial embedding collaborator used for concrete runs. -/
def embedTrivial : List String → List Vec := fun texts => texts.map (fun _ => [])

/-- Clusterer collaborator assigning every document to topic 0. -/
def clusterAllZero : List Vec → List Int := fun vecs => vecs.map (fun _ => 0)

/-- A single page record. -/
def pageOne : PageRecord :=
  { url := "https://one.example", title := "T", meta_description := "",
    body_text := "b", full_text := "T. . b", word_count := 3 }

/-- C3 counterexample: called with exactly one page, `extract_topics` *does*
invoke the reducer/clusterer — the source guards only the empty list. -/
theorem C3_counterexample :
    (extract_topics embedTrivial clusterAllZero [pageOne]).2 = true := rfl

/-- C3 amended: the clusterer is invoked exactly when the page list is
nonempty — a single page is clustered, not short-circuited — and the only
short circuit is the empty list, which yields the error value
"No pages to analyze" rather than a degenerate valid result. -/
theorem C3_single_page_still_clusters :
    (∀ (embed : List String → List Vec) (cluster : List Vec → List Int) pages,
      (extract_topics embed cluster pages).2 = !pages.isEmpty) ∧
    (∀ (embed : List String → List Vec) (cluster : List Vec → List Int),
      (extract_topics embed cluster []).1 = Except.error "No pages to analyze") := by
  constructor
  · intro embed cluster pages
    cases pages with
    | nil => rfl
    | cons p ps => rfl
  · intro embed cluster
    rfl

/-- C4 counterexample: on an empty crawl result, `extract_topics` returns
the error value `{'error': 'No pages to analyze'}` — not the claimed empty
analysis record. -/
theorem C4_counterexample :
    (extract_topics embedTrivial clusterAllZero []).1 =
      Except.error "No pages to analyze" := rfl

/-- C4 amended: an empty crawl is surfaced to the caller as the error value
"No pages to analyze" (never a success payload), and the downstream
embedding/clustering stage is not invoked on it (the driver `main` likewise
returns before scoring when zero pages were crawled). -/
theorem C4_empty_crawl_yields_error :
    ∀ (embed : List String → List Vec) (cluster : List Vec → List Int),
      (extract_topics embed cluster []).1 = Except.error "No pages to analyze" ∧
      (extract_topics embed cluster []).2 = false := by
  intro embed cluster
  exact ⟨rfl, rfl⟩

/-- C1: evaluating the source's consistency computation on the assignment
[0, 0, −1] (two documents in one topic plus one outlier).  The source counts
`total_docs` without outliers but builds the probability list from *all*
`Counter(topics)` values, outlier bucket included, so it returns 1/2; the
spec formula over non-outlier topics only returns 1. -/
theorem C1_outlier_in_distribution :
    topicalConsistency [0, 0, -1] = 1 / 2 ∧
    topicalConsistencySpec [0, 0, -1] = 1 := by
  constructor
  · rw [topicalConsistency]
    norm_num
    rw [if_pos (Real.log_pos (by norm_num : (1 : ℝ) < 2))]
    rw [show ((1 : ℝ) / 2) = (2 : ℝ)⁻¹ by norm_num, Real.log_inv]
    have h2 : Real.log 2 ≠ 0 := (Real.log_pos (by norm_num)).ne'
    field_simp
    ring
  · rw [topicalConsistencySpec]
    norm_num

/-! ### Semantic-relevance refinement (C7)

The source pools within-topic pairwise similarities by iterating over the
distinct topic ids; the spec describes the same pool as a filter over all
index pairs.  The lemmas below show the two pools are permutations of each
other, so mean, length, and emptiness agree. -/

theorem pairsUpper_map (f : α → β) : ∀ l : List α,
    pairsUpper (l.map f) = (pairsUpper l).map (Prod.map f f)
  | [] => rfl
  | x :: xs => by
    simp [pairsUpper, pairsUpper_map f xs, List.map_map, Function.comp, Prod.map]

theorem filter_pairs_head_pos (p : α → Bool) (x : α) (xs : List α) (hp : p x = true) :
    (xs.map (fun y => (x, y))).filter (fun q : α × α => p q.1 && p q.2) =
      (xs.filter p).map (fun y => (x, y)) := by
  rw [List.filter_map]
  have hc : ((fun q : α × α => p q.1 && p q.2) ∘ fun y => (x, y)) = fun y => p x && p y := rfl
  rw [hc]
  simp only [hp, Bool.true_and]

theorem filter_pairs_head_neg (p : α → Bool) (x : α) (xs : List α) (hp : p x = false) :
    (xs.map (fun y => (x, y))).filter (fun q : α × α => p q.1 && p q.2) = [] := by
  rw [List.filter_map]
  have hc : ((fun q : α × α => p q.1 && p q.2) ∘ fun y => (x, y)) = fun y => p x && p y := rfl
  rw [hc]
  simp only [hp, Bool.false_and]
  simp

theorem pairsUpper_filter (p : α → Bool) : ∀ l : List α,
    pairsUpper (l.filter p) = (pairsUpper l).filter (fun q => p q.1 && p q.2)
  | [] => rfl
  | x :: xs => by
    by_cases hp : p x = true
    · rw [List.filter_cons_of_pos hp]
      simp only [pairsUpper, List.filter_append, pairsUpper_filter p xs,
        filter_pairs_head_pos p x xs hp]
    · have hp' : p x = false := by simpa using hp
      rw [List.filter_cons_of_neg (by simp [hp'])]
      simp only [pairsUpper, List.filter_append, pairsUpper_filter p xs,
        filter_pairs_head_neg p x xs hp', List.nil_append]

theorem pairsUpper_eq_nil {l : List α} (h : l.length ≤ 1) : pairsUpper l = [] := by
  match l, h with
  | [], _ => rfl
  | [x], _ => rfl

theorem mem_pairsUpper {q : α × α} : ∀ {l : List α}, q ∈ pairsUpper l → q.1 ∈ l ∧ q.2 ∈ l := by
  intro l
  induction l with
  | nil => intro h; cases h
  | cons x xs ih =>
    intro h
    rcases List.mem_append.mp h with h' | h'
    · rcases List.mem_map.mp h' with ⟨y, hy, hq⟩
      subst hq
      exact ⟨List.mem_cons_self x xs, List.mem_cons_of_mem x hy⟩
    · exact ⟨List.mem_cons_of_mem x (ih h').1, List.mem_cons_of_mem x (ih h').2⟩

theorem sum_if_mem (t0 : Int) (c : ℕ) :
    ∀ ts : List Int, ts.Nodup →
      (ts.map (fun t => if t = t0 then c else 0)).sum = if t0 ∈ ts then c else 0 := by
  intro ts
  induction ts with
  | nil => intro _; simp
  | cons a l ih =>
    intro hnd
    rcases List.nodup_cons.mp hnd with ⟨ha, hl⟩
    by_cases hat : a = t0
    · subst hat
      have h0 : (l.map (fun t => if t = a then c else 0)).sum = 0 := by
        apply List.sum_eq_zero
        intro x hx
        rcases List.mem_map.mp hx with ⟨t, ht, hxt⟩
        have hta : t ≠ a := fun he => ha (he ▸ ht)
        simp [← hxt, hta]
      simp [h0]
    · have hmem : t0 ∈ a :: l ↔ t0 ∈ l := by
        rw [List.mem_cons]
        constructor
        · rintro (h | h)
          · exact absurd h.symm hat
          · exact h
        · exact Or.inr
      simp only [List.map_cons, List.sum_cons, if_neg hat, Nat.zero_add, ih hl]
      exact (if_congr hmem rfl rfl).symm

theorem topicSims_eq (embs : List Vec) (topics : List Int) (t : Int) :
    topicSims embs topics t =
      ((pairsUpper (List.range topics.length)).filter
        (fun q => topics.getD q.1 0 == t && topics.getD q.2 0 == t)).map
        (fun q => cosineSim (embs.getD q.1 []) (embs.getD q.2 [])) := by
  have hfl : (pairsUpper (List.range topics.length)).filter
      (fun q => topics.getD q.1 0 == t && topics.getD q.2 0 == t) =
      pairsUpper ((List.range topics.length).filter (fun i => topics.getD i 0 == t)) :=
    (pairsUpper_filter (fun i => topics.getD i 0 == t) (List.range topics.length)).symm
  simp only [topicSims]
  by_cases h : 1 < ((memberIdx topics t).map (fun i => embs.getD i [])).length
  · rw [if_pos h, hfl, memberIdx]
    rw [pairsUpper_map]
    simp [List.map_map, Function.comp, Prod.map]
  · rw [if_neg h, hfl]
    have hlen : ((List.range topics.length).filter (fun i => topics.getD i 0 == t)).length ≤ 1 := by
      rw [List.length_map] at h
      rw [memberIdx] at h
      omega
    rw [pairsUpper_eq_nil hlen]
    rfl

theorem count_filter_pos {α : Type} [BEq α] [LawfulBEq α] {p : α → Bool} {a : α}
    (h : p a = true) :
    ∀ l : List α, (l.filter p).count a = l.count a := by
  intro l
  induction l with
  | nil => rfl
  | cons x xs ih =>
    by_cases hx : p x = true
    · rw [List.filter_cons_of_pos hx, List.count_cons, List.count_cons, ih]
    · have hx' : ¬ p x := by simpa using hx
      have hax : (x == a) = false := by
        apply beq_eq_false_iff_ne.mpr
        exact fun he => hx' (by rw [he]; exact h)
      rw [List.filter_cons_of_neg hx', ih, List.count_cons, hax]
      simp

theorem count_flatMap_dec {α β : Type} [BEq β] (l : List α) (f : α → List β) (x : β) :
    (l.flatMap f).count x = (l.map (fun a => (f a).count x)).sum := by
  induction l with
  | nil => rfl
  | cons a l ih =>
    rw [List.flatMap_cons, List.count_append, ih, List.map_cons, List.sum_cons]

theorem count_ofDecEq {α : Type} [DecidableEq α] [inst : BEq α] [LawfulBEq α] (a : α) :
    ∀ l : List α, @List.count α instBEqOfDecidableEq a l = @List.count α inst a l := by
  intro l
  induction l with
  | nil => rfl
  | cons x xs ih =>
    simp only [List.count_cons, ih]
    by_cases hxa : x = a
    · simp [hxa]
    · simp [hxa]

theorem within_topic_pairs_perm (topics : List Int) :
    List.Perm
      (((topics.dedup).filter (fun t => t != -1)).flatMap
        (fun t => (pairsUpper (List.range topics.length)).filter
          (fun q => topics.getD q.1 0 == t && topics.getD q.2 0 == t)))
      ((pairsUpper (List.range topics.length)).filter
        (fun q => topics.getD q.1 0 == topics.getD q.2 0 && topics.getD q.1 0 != -1)) := by
  apply List.perm_iff_count.mpr
  intro q
  simp only [count_ofDecEq]
  rw [count_flatMap_dec]
  by_cases hq : q ∈ pairsUpper (List.range topics.length)
  · have h1n : q.1 < topics.length := List.mem_range.mp (mem_pairsUpper hq).1
    have hk1mem : topics.getD q.1 0 ∈ topics := by
      rw [List.getD_eq_getElem _ _ h1n]
      exact List.getElem_mem h1n
    by_cases hk : topics.getD q.1 0 = topics.getD q.2 0
    · have hmapeq : ((topics.dedup).filter (fun t => t != -1)).map
          (fun t => List.count q ((pairsUpper (List.range topics.length)).filter
            (fun q' => topics.getD q'.1 0 == t && topics.getD q'.2 0 == t)))
          = ((topics.dedup).filter (fun t => t != -1)).map
            (fun t => if t = topics.getD q.1 0 then
              (pairsUpper (List.range topics.length)).count q else 0) := by
        apply List.map_congr_left
        intro t _
        by_cases hteq : t = topics.getD q.1 0
        · rw [if_pos hteq]
          apply count_filter_pos
          simp only [Bool.and_eq_true, beq_iff_eq]
          exact ⟨hteq.symm, by rw [← hk]; exact hteq.symm⟩
        · rw [if_neg hteq]
          apply List.count_eq_zero.mpr
          intro hmem
          have hpred := (List.mem_filter.mp hmem).2
          simp only [Bool.and_eq_true, beq_iff_eq] at hpred
          exact hteq hpred.1.symm
      rw [hmapeq, sum_if_mem _ _ _ ((topics.nodup_dedup).filter _)]
      by_cases hout : topics.getD q.1 0 = -1
      · rw [if_neg (fun hmem => by
          have hpred := (List.mem_filter.mp hmem).2
          simp only [bne_iff_ne, ne_eq] at hpred
          exact hpred hout)]
        symm
        apply List.count_eq_zero.mpr
        intro hmem
        have hpred := (List.mem_filter.mp hmem).2
        simp only [Bool.and_eq_true, beq_iff_eq, bne_iff_ne, ne_eq] at hpred
        exact hpred.2 hout
      · rw [if_pos (List.mem_filter.mpr ⟨List.mem_dedup.mpr hk1mem, by
          simp only [bne_iff_ne, ne_eq]
          exact hout⟩)]
        symm
        apply count_filter_pos
        simp only [Bool.and_eq_true, beq_iff_eq, bne_iff_ne, ne_eq]
        exact ⟨hk, hout⟩
    · have hz : ((topics.dedup).filter (fun t => t != -1)).map
          (fun t => List.count q ((pairsUpper (List.range topics.length)).filter
            (fun q' => topics.getD q'.1 0 == t && topics.getD q'.2 0 == t)))
          = ((topics.dedup).filter (fun t => t != -1)).map (fun _ => 0) := by
        apply List.map_congr_left
        intro t _
        apply List.count_eq_zero.mpr
        intro hmem
        have hpred := (List.mem_filter.mp hmem).2
        simp only [Bool.and_eq_true, beq_iff_eq] at hpred
        exact hk (hpred.1.trans hpred.2.symm)
      rw [hz]
      have hz2 : ((pairsUpper (List.range topics.length)).filter
          (fun q' => topics.getD q'.1 0 == topics.getD q'.2 0 &&
            topics.getD q'.1 0 != -1)).count q = 0 := by
        apply List.count_eq_zero.mpr
        intro hmem
        have hpred := (List.mem_filter.mp hmem).2
        simp only [Bool.and_eq_true, beq_iff_eq] at hpred
        exact hk hpred.1
      rw [hz2]
      simp
  · have hz1 : ((topics.dedup).filter (fun t => t != -1)).map
        (fun t => List.count q ((pairsUpper (List.range topics.length)).filter
          (fun q' => topics.getD q'.1 0 == t && topics.getD q'.2 0 == t)))
        = ((topics.dedup).filter (fun t => t != -1)).map (fun _ => 0) := by
      apply List.map_congr_left
      intro t _
      exact List.count_eq_zero.mpr (fun hmem => hq (List.mem_filter.mp hmem).1)
    rw [hz1]
    have hz2 : ((pairsUpper (List.range topics.length)).filter
        (fun q' => topics.getD q'.1 0 == topics.getD q'.2 0 &&
          topics.getD q'.1 0 != -1)).count q = 0 :=
      List.count_eq_zero.mpr (fun hmem => hq (List.mem_filter.mp hmem).1)
    rw [hz2]
    simp

theorem flatMap_congr {α β : Type} {l : List α} {f g : α → List β}
    (h : ∀ a ∈ l, f a = g a) : l.flatMap f = l.flatMap g := by
  induction l with
  | nil => rfl
  | cons x xs ih =>
    rw [List.flatMap_cons, List.flatMap_cons, h x (List.mem_cons_self x xs),
      ih (fun a ha => h a (List.mem_cons_of_mem x ha))]

/-- C7: `_calculate_semantic_relevance` equals the spec description — the
mean over all unordered document pairs sharing a non-outlier topic of the
cosine similarity of their embeddings, pooled across topics (0 when no such
pair exists) — and whenever every non-outlier topic has at most one member
the result is 0. -/
theorem C7_semantic_relevance_spec :
    (∀ (embs : List Vec) (topics : List Int),
      calculate_semantic_relevance embs topics = semanticRelevanceSpec embs topics) ∧
    (∀ (embs : List Vec) (topics : List Int),
      (∀ t ∈ topics, t ≠ -1 → (memberIdx topics t).length ≤ 1) →
      calculate_semantic_relevance embs topics = 0) := by
  constructor
  · intro embs topics
    rw [calculate_semantic_relevance, semanticRelevanceSpec]
    have h1 : ((topics.dedup).filter (fun t => t != -1)).flatMap (topicSims embs topics)
        = (((topics.dedup).filter (fun t => t != -1)).flatMap
            (fun t => (pairsUpper (List.range topics.length)).filter
              (fun q => topics.getD q.1 0 == t && topics.getD q.2 0 == t))).map
            (fun q => cosineSim (embs.getD q.1 []) (embs.getD q.2 [])) := by
      rw [List.map_flatMap]
      exact flatMap_congr (fun t _ => topicSims_eq embs topics t)
    have hperm := (within_topic_pairs_perm topics).map
      (fun q => cosineSim (embs.getD q.1 []) (embs.getD q.2 []))
    rw [h1]
    have hlen := hperm.length_eq
    have hsum := hperm.sum_eq
    by_cases h0 : ((pairsUpper (List.range topics.length)).filter
        (fun q => topics.getD q.1 0 == topics.getD q.2 0 && topics.getD q.1 0 != -1)).map
        (fun q => cosineSim (embs.getD q.1 []) (embs.getD q.2 [])) = []
    · have h0' : (((topics.dedup).filter (fun t => t != -1)).flatMap
          (fun t => (pairsUpper (List.range topics.length)).filter
            (fun q => topics.getD q.1 0 == t && topics.getD q.2 0 == t))).map
          (fun q => cosineSim (embs.getD q.1 []) (embs.getD q.2 [])) = [] := by
        apply List.length_eq_zero.mp
        rw [hlen, h0, List.length_nil]
      rw [if_pos h0', if_pos h0]
    · have h0' : ¬ (((topics.dedup).filter (fun t => t != -1)).flatMap
          (fun t => (pairsUpper (List.range topics.length)).filter
            (fun q => topics.getD q.1 0 == t && topics.getD q.2 0 == t))).map
          (fun q => cosineSim (embs.getD q.1 []) (embs.getD q.2 [])) = [] := by
        intro hnil
        apply h0
        apply List.length_eq_zero.mp
        rw [← hlen, hnil, List.length_nil]
      rw [if_neg h0', if_neg h0, hsum, hlen]
  · intro embs topics h
    rw [calculate_semantic_relevance]
    have hnil : ((topics.dedup).filter (fun t => t != -1)).flatMap (topicSims embs topics) = [] := by
      apply List.flatMap_eq_nil_iff.mpr
      intro t ht
      have htm := List.mem_filter.mp ht
      have ht1 : t ∈ topics := List.mem_dedup.mp htm.1
      have ht2 : t ≠ -1 := by simpa using htm.2
      have hle := h t ht1 ht2
      simp only [topicSims]
      rw [if_neg]
      rw [List.length_map]
      omega
    rw [hnil]
    simp

theorem C7_witness : calculate_semantic_relevance ([] : List Vec) [0, 1, -1] = 0 :=
  C7_semantic_relevance_spec.2 [] [0, 1, -1] (by decide)

end SeoAnalyzer
